import Mathlib

/-!
Verification of the v0-ocean GPU wave-synthesis pipeline.

The definitions below shallowly embed the two source files:
  * `src/src/App.jsx` — spectral pipeline (Phillips spectrum shader, initial
    spectrum shader, time-evolution shader, FFT shader stubs, debug view,
    `Ocean` orchestrator with its FBO allocation), and
  * `src/src/Ocean.jsx` — the alternate simplified mode (simplex-noise
    simulation shader, ping-pong buffers, per-frame swap).
GLSL floats are modelled as real numbers `ℝ`; GLSL vectors as tuples of `ℝ`;
textures as functions from UV coordinates to their stored channels.
-/

open Real

namespace Ocean

/-! ## GLSL primitives -/

/-- GLSL `dot` on `vec2`. -/
def dot2 (a b : ℝ × ℝ) : ℝ := a.1 * b.1 + a.2 * b.2

/-- GLSL `length` on `vec2`: `sqrt (dot k k)`. -/
noncomputable def glLength (k : ℝ × ℝ) : ℝ := Real.sqrt (dot2 k k)

/-- GLSL `normalize` on `vec2`: `k / length k` (componentwise). -/
noncomputable def glNormalize (k : ℝ × ℝ) : ℝ × ℝ :=
  (k.1 / glLength k, k.2 / glLength k)

/-! ## Constants (App.jsx lines 24-27) -/

/-- `const RESOLUTION = 256`. -/
def RESOLUTION : ℕ := 256

/-- `const WIND_SPEED = 10.0`. -/
noncomputable def WIND_SPEED : ℝ := 10.0

/-- `const WIND_DIRECTION = new THREE.Vector2(1, 1).normalize()`. -/
noncomputable def WIND_DIRECTION : ℝ × ℝ := glNormalize (1, 1)

/-- `const GRAVITY = 9.81`. -/
noncomputable def GRAVITY : ℝ := 9.81

/-! ## Phillips spectrum shader (App.jsx lines 51-67)

```
float phillips(vec2 k) {
  float kLength = length(k);
  if (kLength < 0.0001) return 0.0;
  float L = (uWindSpeed * uWindSpeed) / uGravity;
  float kDotW = dot(normalize(k), uWindDirection);
  float damping = exp(-kLength * kLength * pow(L/1000.0, 2.0));
  return uAlpha * exp(-1.0/(kLength * kLength * L * L))
         * pow(kDotW * kDotW, 1.0)
         * damping
         / (kLength * kLength * kLength * kLength);
}
```
GLSL `pow` is modelled by the real power `Real.rpow`. -/
noncomputable def phillips (uWindSpeed : ℝ) (uWindDirection : ℝ × ℝ)
    (uGravity uAlpha : ℝ) (k : ℝ × ℝ) : ℝ :=
  let kLength := glLength k
  if kLength < 0.0001 then 0.0
  else
    let L := (uWindSpeed * uWindSpeed) / uGravity
    let kDotW := dot2 (glNormalize k) uWindDirection
    let damping := Real.exp (-kLength * kLength * (L / 1000.0) ^ (2.0 : ℝ))
    uAlpha * Real.exp (-1.0 / (kLength * kLength * L * L))
      * (kDotW * kDotW) ^ (1.0 : ℝ)
      * damping
      / (kLength * kLength * kLength * kLength)

/-- The wave vector computed from a texel UV coordinate
(App.jsx line 64 and line 141):
`vec2 k = vec2(2.0 * PI * (vUv.x - 0.5), 2.0 * PI * (vUv.y - 0.5)) * float(256)`. -/
noncomputable def kVec (uv : ℝ × ℝ) : ℝ × ℝ :=
  (2.0 * π * (uv.1 - 0.5) * (RESOLUTION : ℝ),
   2.0 * π * (uv.2 - 0.5) * (RESOLUTION : ℝ))

/-! ## Initial spectrum shader (App.jsx lines 89-97)

```
vec4 noise = texture2D(uNoise, vUv);
float phillips = texture2D(uPhillips, vUv).r;
vec2 h0k = sqrt(phillips/2.0) * noise.xy;
gl_FragColor = vec4(h0k, 0.0, 1.0);
```
The Phillips texture is its red channel (`ℝ`), the noise texture its first two
channels (`ℝ × ℝ`). -/
noncomputable def initialSpectrumFrag (uPhillips : ℝ × ℝ → ℝ)
    (uNoise : ℝ × ℝ → ℝ × ℝ) (vUv : ℝ × ℝ) : ℝ × ℝ :=
  let noise := uNoise vUv
  let phillipsV := uPhillips vUv
  (Real.sqrt (phillipsV / 2.0) * noise.1, Real.sqrt (phillipsV / 2.0) * noise.2)

/-! ## Time evolution shader (App.jsx lines 139-147)

```
vec2 h0k = texture2D(uInitialSpectrum, vUv).xy;
vec2 k = vec2(2.0 * PI * (vUv.x - 0.5), 2.0 * PI * (vUv.y - 0.5)) * float(256);
float w = sqrt(9.81 * length(k));
vec2 ht = h0k * cos(w * uTime);
gl_FragColor = vec4(ht, 0.0, 1.0);
```
(`${GRAVITY}` is baked into the shader text as 9.81 = `GRAVITY`.) -/
noncomputable def timeEvolutionFrag (uInitialSpectrum : ℝ × ℝ → ℝ × ℝ)
    (uTime : ℝ) (vUv : ℝ × ℝ) : ℝ × ℝ :=
  let h0k := uInitialSpectrum vUv
  let k := kVec vUv
  let w := Real.sqrt (GRAVITY * glLength k)
  (h0k.1 * Real.cos (w * uTime), h0k.2 * Real.cos (w * uTime))

/-- Deep-water dispersion relation as written in the spec: ω(k) = sqrt(g·|k|). -/
noncomputable def omegaSpec (k : ℝ × ℝ) : ℝ := Real.sqrt (GRAVITY * glLength k)

/-! ## Alternate simplified mode: simplex-noise simulation shader
(Ocean.jsx lines 18-84) -/

/-- GLSL `floor`, as a real-valued function. -/
noncomputable def glFloor (x : ℝ) : ℝ := ⌊x⌋

/-- GLSL `fract`. -/
noncomputable def glFract (x : ℝ) : ℝ := x - glFloor x

/-- `mod289` from the simulation shader (applied componentwise by the vec2/vec3
overloads): `x - floor(x * (1.0 / 289.0)) * 289.0`. -/
noncomputable def mod289s (x : ℝ) : ℝ := x - glFloor (x * (1.0 / 289.0)) * 289.0

/-- `permute` from the simulation shader (componentwise):
`mod289(((x*34.0)+1.0)*x)`. -/
noncomputable def permuteS (x : ℝ) : ℝ := mod289s ((x * 34.0 + 1.0) * x)

/-- `snoise` (Gustavson's textureless classic 2D simplex noise) from the
simulation shader, Ocean.jsx lines 44-70, with vec2/vec3/vec4 operations
written out componentwise. -/
noncomputable def snoise (v : ℝ × ℝ) : ℝ :=
  let Cx : ℝ := 0.211324865405187
  let Cy : ℝ := 0.366025403784439
  let Cz : ℝ := -0.577350269189626
  let Cw : ℝ := 0.024390243902439
  -- vec2 i = floor(v + dot(v, C.yy));
  let ix := glFloor (v.1 + dot2 v (Cy, Cy))
  let iy := glFloor (v.2 + dot2 v (Cy, Cy))
  -- vec2 x0 = v - i + dot(i, C.xx);
  let x0x := v.1 - ix + dot2 (ix, iy) (Cx, Cx)
  let x0y := v.2 - iy + dot2 (ix, iy) (Cx, Cx)
  -- i1 = (x0.x > x0.y) ? vec2(1.0, 0.0) : vec2(0.0, 1.0);
  let i1x : ℝ := if x0x > x0y then 1.0 else 0.0
  let i1y : ℝ := if x0x > x0y then 0.0 else 1.0
  -- vec4 x12 = x0.xyxy + C.xxzz; x12.xy -= i1;
  let x12x := x0x + Cx - i1x
  let x12y := x0y + Cx - i1y
  let x12z := x0x + Cz
  let x12w := x0y + Cz
  -- i = mod289(i);
  let imx := mod289s ix
  let imy := mod289s iy
  -- vec3 p = permute( permute( i.y + vec3(0.0, i1.y, 1.0 ))
  --   + i.x + vec3(0.0, i1.x, 1.0 ));
  let px := permuteS (permuteS (imy + 0.0) + imx + 0.0)
  let py := permuteS (permuteS (imy + i1y) + imx + i1x)
  let pz := permuteS (permuteS (imy + 1.0) + imx + 1.0)
  -- vec3 m = max(0.5 - vec3(dot(x0,x0), dot(x12.xy,x12.xy), dot(x12.zw,x12.zw)), 0.0);
  let mx := max (0.5 - dot2 (x0x, x0y) (x0x, x0y)) 0.0
  let my := max (0.5 - dot2 (x12x, x12y) (x12x, x12y)) 0.0
  let mz := max (0.5 - dot2 (x12z, x12w) (x12z, x12w)) 0.0
  -- m = m*m; m = m*m;
  let mx2 := mx * mx
  let my2 := my * my
  let mz2 := mz * mz
  let mx4 := mx2 * mx2
  let my4 := my2 * my2
  let mz4 := mz2 * mz2
  -- vec3 x = 2.0 * fract(p * C.www) - 1.0;
  let xx := 2.0 * glFract (px * Cw) - 1.0
  let xy := 2.0 * glFract (py * Cw) - 1.0
  let xz := 2.0 * glFract (pz * Cw) - 1.0
  -- vec3 h = abs(x) - 0.5;
  let hx := |xx| - 0.5
  let hy := |xy| - 0.5
  let hz := |xz| - 0.5
  -- vec3 ox = floor(x + 0.5); vec3 a0 = x - ox;
  let a0x := xx - glFloor (xx + 0.5)
  let a0y := xy - glFloor (xy + 0.5)
  let a0z := xz - glFloor (xz + 0.5)
  -- m *= 1.79284291400159 - 0.85373472095314 * ( a0*a0 + h*h );
  let fmx := mx4 * (1.79284291400159 - 0.85373472095314 * (a0x * a0x + hx * hx))
  let fmy := my4 * (1.79284291400159 - 0.85373472095314 * (a0y * a0y + hy * hy))
  let fmz := mz4 * (1.79284291400159 - 0.85373472095314 * (a0z * a0z + hz * hz))
  -- g.x = a0.x*x0.x + h.x*x0.y;  g.yz = a0.yz*x12.xz + h.yz*x12.yw;
  let gx := a0x * x0x + hx * x0y
  let gy := a0y * x12x + hy * x12y
  let gz := a0z * x12z + hz * x12w
  -- return 130.0 * dot(m, g);
  130.0 * (fmx * gx + fmy * gy + fmz * gz)

/-- The simulation shader's `main` (Ocean.jsx lines 72-82).  Its `uPrevState`
sampler uniform is declared in the shader (line 20) and is therefore a
parameter here, but the shader body never samples it:

```
vec2 scale1 = vec2(2.6); vec2 scale2 = vec2(2.9);
float noise1 = snoise(vUv * scale1 + uTime * 0.1);
float noise2 = snoise(vUv * scale2 - uTime * 0.15);
float height = (noise1 + noise2) * 0.5;
gl_FragColor = vec4(height, 0.0, 0.0, 1.0);
```
(GLSL adds the scalar `uTime * 0.1` to both components.)  The texture is
modelled by its red channel, the only channel read downstream. -/
noncomputable def simFragment (uPrevState : ℝ × ℝ → ℝ) (uTime : ℝ)
    (vUv : ℝ × ℝ) : ℝ :=
  let noise1 := snoise (vUv.1 * 2.6 + uTime * 0.1, vUv.2 * 2.6 + uTime * 0.1)
  let noise2 := snoise (vUv.1 * 2.9 - uTime * 0.15, vUv.2 * 2.9 - uTime * 0.15)
  (noise1 + noise2) * 0.5

/-! ## Alternate-mode ping-pong orchestration (Ocean.jsx lines 212-236) -/

/-- State of the alternate mode's ping-pong pair: which of the two render
targets (`false` = heightmapFBO1, `true` = heightmapFBO2) currently plays the
read role and which the write role, and each target's stored contents
(red channel, as a function of UV). -/
structure AltState where
  read : Bool
  write : Bool
  contents : Bool → (ℝ × ℝ → ℝ)

/-- One frame of the alternate mode's `useFrame` body (Ocean.jsx 214-236):
bind `uPrevState` to the read target's texture, render the simulation shader
into the write target, then swap the read/write roles unconditionally. -/
noncomputable def frameStep (t : ℝ) (st : AltState) : AltState :=
  let rendered : ℝ × ℝ → ℝ := fun uv => simFragment (st.contents st.read) t uv
  { read := st.write
    write := st.read
    contents := fun b => if b = st.write then rendered else st.contents b }

/-- Iterated frames, first list element first. -/
noncomputable def frameSteps (ts : List ℝ) (st : AltState) : AltState :=
  match ts with
  | [] => st
  | t :: rest => frameSteps rest (frameStep t st)

/-- A concrete alternate-mode state whose read target holds the constant 0. -/
def altStateA : AltState := ⟨false, true, fun _ => fun _ => 0⟩

/-- A concrete alternate-mode state identical to `altStateA` except that its
read target holds the constant 1. -/
def altStateB : AltState := ⟨false, true, fun _ => fun _ => 1⟩

/-! ## Initialization / FBO allocation (App.jsx lines 233-255) -/

/-- A natural number is a power of two. -/
def isPowTwo (n : ℕ) : Prop := ∃ k, n = 2 ^ k

/-- Embeds the `fbos` `useMemo` of the spectral `Ocean` component (App.jsx
233-255): it allocates the seven render targets — phillips, initialSpectrum,
spectrum, displacement, normals and the two pingPong targets, each
resolution×resolution — unconditionally.  There is no validation branch
anywhere in the source; the configuration scalars are accepted here as the
parameters the claim quantifies over but are never inspected. -/
def oceanInit (resolution : ℕ) (windSpeed gravity : ℝ) : List (ℕ × ℕ) :=
  [(resolution, resolution), (resolution, resolution), (resolution, resolution),
   (resolution, resolution), (resolution, resolution), (resolution, resolution),
   (resolution, resolution)]

/-! ## Debug visualization (App.jsx lines 211-225, Ocean.jsx lines 160-179) -/

/-- Observable state of the spectral pipeline: the contents of every
simulation render target (`α` is the texture contents type), the simulation
materials' uniforms, and the debug material's `uTexture` uniform. -/
structure PipelineState (α : Type) where
  phillipsTex : α
  initialSpectrumTex : α
  spectrumTex : α
  displacementTex : α
  normalsTex : α
  pingPong0Tex : α
  pingPong1Tex : α
  phillipsUniforms : ℝ × (ℝ × ℝ) × ℝ × ℝ
  initialSpectrumUniforms : Option α × Option α
  timeEvolutionUniforms : Option α × ℝ
  debugUniform : Option α

/-- Embeds `DebugView`'s `useFrame` callback (App.jsx 214-218): binding a
texture for debug visualization writes it into the debug material's
`uTexture` uniform and nothing else; the debug quad then renders to the
screen (render target `null`), not to any simulation target. -/
def debugRender {α : Type} (s : PipelineState α) (texture : α) : PipelineState α :=
  { s with debugUniform := some texture }

/-- Embeds `DebugPlane`'s `useFrame` callback (Ocean.jsx 163-167): it writes
the requested heightmap texture into the debug material's `uHeightmap`
uniform; the alternate-mode simulation state (ping-pong roles and target
contents) is not touched.  Returns the (unchanged) simulation state together
with the new debug-uniform value. -/
def debugPlaneRender (sim : AltState) (heightmapTexture : ℝ × ℝ → ℝ)
    (debugUniform : Option (ℝ × ℝ → ℝ)) : AltState × Option (ℝ × ℝ → ℝ) :=
  (sim, some heightmapTexture)

/-! ## FFT engine

App.jsx's `butterflyTextureShader`, `horizontalFFTShader` and
`verticalFFTShader` (lines 102-119) are empty stubs (`vertexShader: ""`,
`fragmentShader: ""`, "Will contain …"), so the FFT engine below is modelled
from the spec (§4.4). -/

/-- Primitive M-th root of unity used as the twiddle-factor base, inverse
transform sign convention: `exp(2πi/M)`. -/
noncomputable def omegaC (M : ℕ) : ℂ := Complex.exp (2 * (Real.pi : ℂ) * Complex.I / M)

/-- m-bit bit-reversal of an index: `bitRev m x` reverses the low m bits
of `x`. -/
def bitRev : ℕ → ℕ → ℕ
  | 0, _ => 0
  | m + 1, x => bitRev m (x / 2) + x % 2 * 2 ^ m

/-- Modelled from the spec: the butterfly texture (App.jsx's
`butterflyTextureShader` is an empty stub).  For stage `s` and output index
`i` it stores the two source indices to combine — `a` and `a + stride` with
stride `2^s` — and the twiddle factor `exp(2πi/2^(s+1))^j` (angle `2πj/2^(s+1)`,
inverse-transform sign) where `j` is the index's offset in its size-`2^(s+1)`
block.  Bit reversal of the input order is applied separately in `fft1D`. -/
noncomputable def butterflyTexture (s i : ℕ) : (ℕ × ℕ) × ℂ :=
  let half := 2 ^ s
  let size := 2 * half
  let j := i % size
  let a := i - j + j % half
  ((a, a + half), omegaC size ^ j)

/-- Modelled from the spec: one butterfly stage (the horizontal/vertical FFT
pass shaders are empty stubs): `out[i] = in[a] + twiddle · in[b]` with
`(a, b)` and the twiddle read from the butterfly texture. -/
noncomputable def butterflyStage (s : ℕ) (v : ℕ → ℂ) (i : ℕ) : ℂ :=
  let bt := butterflyTexture s i
  v bt.1.1 + bt.2 * v bt.1.2

/-- Modelled from the spec: iterate butterfly stages `0, …, n-1` (block sizes
`2, 4, …, 2^n`), each stage reading the previous stage's output. -/
noncomputable def fftStages : ℕ → (ℕ → ℂ) → ℕ → ℂ
  | 0, v => v
  | s + 1, v => butterflyStage s (fftStages s v)

/-- Modelled from the spec: the 1D inverse FFT over `N = 2^n` points — the
bit-reversal permutation baked into the input order, followed by the
`log2 N = n` butterfly stages. -/
noncomputable def fft1D (n : ℕ) (f : ℕ → ℂ) : ℕ → ℂ :=
  fftStages n (fun i => f (bitRev n i))

/-- Modelled from the spec: the horizontal passes run the `n` butterfly
stages along the first axis of each row of the field. -/
noncomputable def horizontalFFT (n : ℕ) (u : ℕ → ℕ → ℂ) : ℕ → ℕ → ℂ :=
  fun i j => fft1D n (fun x => u x j) i

/-- Modelled from the spec: the vertical passes run the same algorithm along
the orthogonal axis, on the horizontal passes' final result. -/
noncomputable def verticalFFT (n : ℕ) (u : ℕ → ℕ → ℂ) : ℕ → ℕ → ℂ :=
  fun i j => fft1D n (fun y => u i y) j

/-- Modelled from the spec: the full FFT engine — `log2 N` horizontal
butterfly stages followed by `log2 N` vertical butterfly stages. -/
noncomputable def fft2D (n : ℕ) (u : ℕ → ℕ → ℂ) : ℕ → ℕ → ℂ :=
  verticalFFT n (horizontalFFT n u)

/-- The normalized spatial-domain inverse 2D DFT of an `N×N` field
(`N = 2^n`), with the `1/N²` inverse-transform scaling:
`(1/N²) ∑_j ∑_i u(i,j) · exp(2πi·(x·i + y·j)/N)`. -/
noncomputable def invDFT2D (n : ℕ) (u : ℕ → ℕ → ℂ) (x y : ℕ) : ℂ :=
  (1 / ((2 ^ n : ℂ)) ^ 2) *
    ∑ j ∈ Finset.range (2 ^ n), ∑ i ∈ Finset.range (2 ^ n),
      u i j * Complex.exp (2 * (Real.pi : ℂ) * Complex.I *
        ((x : ℂ) * (i : ℂ) + (y : ℂ) * (j : ℂ)) / (2 ^ n : ℂ))

/-- A concrete 2×2 complex field used to witness the FFT theorem. -/
def sampleField2D : ℕ → ℕ → ℂ := fun i j => (i : ℂ) + 2 * (j : ℂ)

/-- A concrete constant spectrum texture used to witness determinism. -/
def specTexOne : ℝ × ℝ → ℝ := fun _ => 1

/-- A concrete constant noise texture used to witness determinism. -/
def noiseTexOne : ℝ × ℝ → ℝ × ℝ := fun _ => (1, 0)

/-! ## Theorems -/

/-- C2: for every texel UV (hence every wave vector `kVec uv`) and every
elapsed time t, the time-evolution shader computes
h(k,t) = h0(k)·cos(ω(k)·t) with ω(k) = sqrt(g·|k|), and in particular at
t = 0 it yields h(k,0) = h0(k) exactly. -/
theorem time_evolution_formula (h0 : ℝ × ℝ → ℝ × ℝ) (t : ℝ) (uv : ℝ × ℝ) :
    timeEvolutionFrag h0 t uv
      = ((h0 uv).1 * Real.cos (omegaSpec (kVec uv) * t),
         (h0 uv).2 * Real.cos (omegaSpec (kVec uv) * t))
    ∧ timeEvolutionFrag h0 0 uv = h0 uv := by
  constructor
  · rfl
  · simp [timeEvolutionFrag]

/-- C10: each component of the time-evolved spectrum is bounded in absolute
value by the corresponding component of the initial spectrum, because the
only time-dependent factor is cos(ω·t), of magnitude at most 1. -/
theorem evolved_amplitude_bounded (h0 : ℝ × ℝ → ℝ × ℝ) (t : ℝ) (uv : ℝ × ℝ) :
    |(timeEvolutionFrag h0 t uv).1| ≤ |(h0 uv).1|
    ∧ |(timeEvolutionFrag h0 t uv).2| ≤ |(h0 uv).2| := by
  have key : ∀ a θ : ℝ, |a * Real.cos θ| ≤ |a| := by
    intro a θ
    rw [abs_mul]
    calc |a| * |Real.cos θ| ≤ |a| * 1 :=
          mul_le_mul_of_nonneg_left (Real.abs_cos_le_one θ) (abs_nonneg a)
      _ = |a| := mul_one _
  exact ⟨key _ _, key _ _⟩

/-- C5: the Initial-Field Synthesizer produces h0(k) = sqrt(P(k)/2)·(n_x,n_y)
from the Phillips texture and the first two noise channels, and it is
deterministic: the output at a texel depends only on the spectrum and noise
samples there — no per-frame quantity enters the computation. -/
theorem initial_spectrum_formula_deterministic :
    (∀ (P : ℝ × ℝ → ℝ) (nz : ℝ × ℝ → ℝ × ℝ) (uv : ℝ × ℝ),
      initialSpectrumFrag P nz uv
        = (Real.sqrt (P uv / 2) * (nz uv).1, Real.sqrt (P uv / 2) * (nz uv).2))
    ∧ (∀ (P₁ : ℝ × ℝ → ℝ) (n₁ : ℝ × ℝ → ℝ × ℝ) (P₂ : ℝ × ℝ → ℝ)
        (n₂ : ℝ × ℝ → ℝ × ℝ) (uv : ℝ × ℝ), P₁ uv = P₂ uv → n₁ uv = n₂ uv →
      initialSpectrumFrag P₁ n₁ uv = initialSpectrumFrag P₂ n₂ uv) := by
  constructor
  · intro P nz uv
    norm_num [initialSpectrumFrag]
  · intro P₁ n₁ P₂ n₂ uv hP hn
    simp [initialSpectrumFrag, hP, hn]

/-- Witness for C5 at a concrete spectrum/noise texture pair. -/
theorem initial_spectrum_formula_deterministic_witness :
    specTexOne (0, 0) = specTexOne (0, 0) ∧ noiseTexOne (0, 0) = noiseTexOne (0, 0)
    ∧ initialSpectrumFrag specTexOne noiseTexOne (0, 0)
        = initialSpectrumFrag specTexOne noiseTexOne (0, 0) :=
  ⟨rfl, rfl, initial_spectrum_formula_deterministic.2 specTexOne noiseTexOne
    specTexOne noiseTexOne (0, 0) rfl rfl⟩

/-- C3: for every wave vector with |k| below the 0.0001 threshold the
Phillips function returns exactly 0 — the division by |k| in the else branch
is never evaluated there. -/
theorem phillips_zero_below_epsilon (W : ℝ) (wd : ℝ × ℝ) (g a : ℝ)
    (k : ℝ × ℝ) (hk : glLength k < 0.0001) :
    phillips W wd g a k = 0 := by
  simp only [phillips]
  rw [if_pos hk]
  norm_num

/-- Witness for C3 at the DC texel k = (0,0). -/
theorem phillips_zero_below_epsilon_witness :
    glLength (0, 0) < 0.0001 ∧ phillips 10 (1, 0) 9.81 0.0081 (0, 0) = 0 := by
  have h : glLength ((0 : ℝ), (0 : ℝ)) < 0.0001 := by
    norm_num [glLength, dot2, Real.sqrt_zero]
  exact ⟨h, phillips_zero_below_epsilon 10 (1, 0) 9.81 0.0081 (0, 0) h⟩

/-- C4: for every wave vector, non-negative alpha, positive wind speed,
unit wind direction and positive gravity, the Phillips spectrum value is
non-negative. -/
theorem phillips_nonneg (W : ℝ) (wd : ℝ × ℝ) (g a : ℝ) (k : ℝ × ℝ)
    (ha : 0 ≤ a) (hW : 0 < W) (hg : 0 < g) (hwd : glLength wd = 1) :
    0 ≤ phillips W wd g a k := by
  have hkL : 0 ≤ glLength k := Real.sqrt_nonneg _
  simp only [phillips]
  split_ifs with h
  · norm_num
  · apply div_nonneg
    · apply mul_nonneg
      apply mul_nonneg
      apply mul_nonneg ha (Real.exp_pos _).le
      · exact Real.rpow_nonneg (mul_self_nonneg _) _
      · exact (Real.exp_pos _).le
    · exact mul_nonneg (mul_nonneg (mul_nonneg hkL hkL) hkL) hkL

/-- Witness for C4 at the hard-coded configuration and k = (3,4). -/
theorem phillips_nonneg_witness :
    (0 : ℝ) ≤ 0.0081 ∧ (0 : ℝ) < 10 ∧ (0 : ℝ) < 9.81 ∧ glLength (1, 0) = 1
    ∧ 0 ≤ phillips 10 (1, 0) 9.81 0.0081 (3, 4) := by
  have hwd : glLength ((1 : ℝ), (0 : ℝ)) = 1 := by
    norm_num [glLength, dot2, Real.sqrt_one]
  exact ⟨by norm_num, by norm_num, by norm_num, hwd,
    phillips_nonneg 10 (1, 0) 9.81 0.0081 (3, 4)
      (by norm_num) (by norm_num) (by norm_num) hwd⟩

/-- C6 counterexample: two alternate-mode states whose read targets hold
different contents (constant 0 versus constant 1 at every texel) produce
pointwise identical contents in the write target after a frame — the
simulation shader never samples the bound `uPrevState`, so the heightmap
written into the next frame's write buffer is not computed by sampling the
read buffer. -/
theorem sim_ignores_prev_state_counterexample :
    altStateA.contents altStateA.read (0, 0) ≠ altStateB.contents altStateB.read (0, 0)
    ∧ (frameStep 0 altStateA).contents altStateA.write
        = (frameStep 0 altStateB).contents altStateB.write := by
  constructor
  · norm_num [altStateA, altStateB]
  · rfl

/-- C6 amended: the read target from frame n is bound as the `uPrevState`
uniform of frame n+1's simulation pass, but the fragment shader never samples
it — the value written into the write target is
(snoise(uv·2.6 + 0.1t) + snoise(uv·2.9 − 0.15t))·0.5, a function of the texel
coordinate and elapsed time only, independent of every buffer's contents. -/
theorem sim_prev_state_bound_but_unsampled (st : AltState) (t : ℝ) (uv : ℝ × ℝ) :
    (frameStep t st).contents st.write uv
      = (snoise (uv.1 * 2.6 + t * 0.1, uv.2 * 2.6 + t * 0.1)
         + snoise (uv.1 * 2.9 - t * 0.15, uv.2 * 2.9 - t * 0.15)) * 0.5 := by
  simp [frameStep, simFragment]

/-- C7: the read/write roles of the two alternate-mode render targets swap
unconditionally after every frame, so after an even number of frames the
read reference is the frame-0 read target and after an odd number it is the
other one. -/
theorem pingpong_roles_alternate (ts : List ℝ) (st : AltState) :
    (frameSteps ts st).read = (if Even ts.length then st.read else st.write)
    ∧ (frameSteps ts st).write = (if Even ts.length then st.write else st.read) := by
  induction ts generalizing st with
  | nil => simp [frameSteps]
  | cons t rest ih =>
    rcases ih (frameStep t st) with ⟨h1, h2⟩
    have hr : (frameStep t st).read = st.write := rfl
    have hw : (frameStep t st).write = st.read := rfl
    rw [hr, hw] at h1 h2
    constructor
    · show (frameSteps rest (frameStep t st)).read = _
      rw [h1, List.length_cons]
      by_cases h : Even rest.length <;> simp [h, Nat.even_add_one]
    · show (frameSteps rest (frameStep t st)).write = _
      rw [h2, List.length_cons]
      by_cases h : Even rest.length <;> simp [h, Nat.even_add_one]

/-- Seven is not a power of two. -/
lemma not_isPowTwo_seven : ¬ isPowTwo 7 := by
  rintro ⟨k, hk⟩
  rcases k with _ | _ | _ | k
  · norm_num at hk
  · norm_num at hk
  · norm_num at hk
  · have h8 : 8 ≤ 2 ^ (k + 3) := by
      calc (8 : ℕ) = 2 ^ 3 := by norm_num
        _ ≤ 2 ^ (k + 3) := Nat.pow_le_pow_right (by norm_num) (by omega)
    omega

/-- C8 counterexample: for the invalid configuration resolution = 7 (not a
power of two), wind speed = −1 and gravity = −1, initialization still
allocates all seven render targets — it is not rejected before GPU resource
allocation. -/
theorem no_config_validation_counterexample :
    ¬ isPowTwo 7 ∧ (oceanInit 7 (-1) (-1)).length = 7 :=
  ⟨not_isPowTwo_seven, rfl⟩

/-- C8 amended: the implementation performs no configuration validation —
there is no ConfigurationError path and render-target allocation proceeds
unconditionally for every parameter value; the only configuration is the
hard-coded constants, which do satisfy the constraints (256 is a power of
two, wind speed 10 and gravity 9.81 are positive). -/
theorem no_config_validation_amended :
    (∀ (r : ℕ) (W g : ℝ), (oceanInit r W g).length = 7)
    ∧ isPowTwo RESOLUTION ∧ (0 : ℝ) < WIND_SPEED ∧ (0 : ℝ) < GRAVITY := by
  refine ⟨fun r W g => rfl, ⟨8, rfl⟩, ?_, ?_⟩
  · norm_num [WIND_SPEED]
  · norm_num [GRAVITY]

/-- C9: binding an intermediate texture to a debug material and rendering a
debug quad leaves all pipeline state unchanged — every simulation render
target's contents, every simulation material uniform, and the alternate
mode's ping-pong read/write roles and target contents are the same after the
debug read as before it; only the debug material's own uniform changes. -/
theorem debug_view_readonly {α : Type} (s : PipelineState α) (tex : α)
    (sim : AltState) (hm : ℝ × ℝ → ℝ) (du : Option (ℝ × ℝ → ℝ)) :
    ((debugRender s tex).phillipsTex = s.phillipsTex
      ∧ (debugRender s tex).initialSpectrumTex = s.initialSpectrumTex
      ∧ (debugRender s tex).spectrumTex = s.spectrumTex
      ∧ (debugRender s tex).displacementTex = s.displacementTex
      ∧ (debugRender s tex).normalsTex = s.normalsTex
      ∧ (debugRender s tex).pingPong0Tex = s.pingPong0Tex
      ∧ (debugRender s tex).pingPong1Tex = s.pingPong1Tex
      ∧ (debugRender s tex).phillipsUniforms = s.phillipsUniforms
      ∧ (debugRender s tex).initialSpectrumUniforms = s.initialSpectrumUniforms
      ∧ (debugRender s tex).timeEvolutionUniforms = s.timeEvolutionUniforms)
    ∧ (debugPlaneRender sim hm du).1 = sim :=
  ⟨⟨rfl, rfl, rfl, rfl, rfl, rfl, rfl, rfl, rfl, rfl⟩, rfl⟩

/-! ### FFT engine correctness -/

/-- The twiddle base is an M-th root of unity. -/
lemma omegaC_pow_self (M : ℕ) : omegaC M ^ M = 1 := by
  cases M with
  | zero => simp
  | succ m =>
    have hM : ((m + 1 : ℕ) : ℂ) ≠ 0 := by
      exact_mod_cast Nat.succ_ne_zero m
    have key : ((m + 1 : ℕ) : ℂ) * (2 * (Real.pi : ℂ) * Complex.I / ((m + 1 : ℕ) : ℂ))
        = 2 * (Real.pi : ℂ) * Complex.I := by
      rw [mul_comm, div_mul_cancel₀ _ hM]
    rw [omegaC, ← Complex.exp_nat_mul, key, Complex.exp_two_pi_mul_I]

/-- Squaring the 2M-th twiddle base gives the M-th twiddle base. -/
lemma omegaC_two_mul_sq (M : ℕ) : omegaC (2 * M) ^ 2 = omegaC M := by
  rw [omegaC, omegaC, ← Complex.exp_nat_mul]
  congr 1
  push_cast
  rw [← mul_div_assoc, mul_div_mul_left _ _ (two_ne_zero)]

/-- Powers of a root of unity only depend on the exponent modulo M. -/
lemma pow_natMod (ζ : ℂ) (M a : ℕ) (h : ζ ^ M = 1) : ζ ^ a = ζ ^ (a % M) := by
  conv_lhs => rw [← Nat.div_add_mod a M]
  rw [pow_add, pow_mul, h, one_pow, one_mul]

/-- Congruent exponents give equal powers of a root of unity. -/
lemma pow_natModEq (ζ : ℂ) (M a b : ℕ) (h : ζ ^ M = 1) (hab : a ≡ b [MOD M]) :
    ζ ^ a = ζ ^ b := by
  rw [pow_natMod ζ M a h, pow_natMod ζ M b h, show a % M = b % M from hab]

/-- Splitting a sum over an even range into even-index and odd-index parts. -/
lemma sum_range_even_odd (h : ℕ → ℂ) (k : ℕ) :
    ∑ i ∈ Finset.range (2 * k), h i
      = ∑ i ∈ Finset.range k, h (2 * i) + ∑ i ∈ Finset.range k, h (2 * i + 1) := by
  induction k with
  | zero => simp
  | succ m ih =>
    have h2 : 2 * (m + 1) = 2 * m + 1 + 1 := by ring
    rw [h2, Finset.sum_range_succ, Finset.sum_range_succ, ih,
        Finset.sum_range_succ, Finset.sum_range_succ]
    ring

/-- Bit-reversing an even number drops its zero low bit. -/
lemma bitRev_succ_even (m g : ℕ) : bitRev (m + 1) (2 * g) = bitRev m g := by
  have h1 : 2 * g / 2 = g := by omega
  have h2 : 2 * g % 2 = 0 := by omega
  simp [bitRev, h1, h2]

/-- Bit-reversing an odd number sends its one low bit to the top. -/
lemma bitRev_succ_odd (m g : ℕ) : bitRev (m + 1) (2 * g + 1) = bitRev m g + 2 ^ m := by
  have h1 : (2 * g + 1) / 2 = g := by omega
  have h2 : (2 * g + 1) % 2 = 1 := by omega
  simp [bitRev, h1, h2]

/-- Evaluating one butterfly stage at index `g·2^(s+1) + J` (with `J` inside
the block): it combines the two block entries at offset `J mod 2^s` with the
twiddle `ω_{2^(s+1)}^J`. -/
lemma butterflyStage_apply (s : ℕ) (v : ℕ → ℂ) (g J : ℕ) (hJ : J < 2 * 2 ^ s) :
    butterflyStage s v (g * (2 * 2 ^ s) + J)
      = v (g * (2 * 2 ^ s) + J % 2 ^ s)
        + omegaC (2 * 2 ^ s) ^ J * v (g * (2 * 2 ^ s) + J % 2 ^ s + 2 ^ s) := by
  unfold butterflyStage butterflyTexture
  dsimp only
  have hmod : (g * (2 * 2 ^ s) + J) % (2 * 2 ^ s) = J := by
    rw [mul_comm g (2 * 2 ^ s), Nat.mul_add_mod, Nat.mod_eq_of_lt hJ]
  rw [hmod, Nat.add_sub_cancel]

/-- Loop invariant of the iterated butterfly stages on bit-reversed input:
after stages `0 … s-1`, entry `j` of block `g` (of size `2^s`) holds the
`2^s`-point inverse DFT, evaluated at `j`, of the stride-`2^(n-s)`
subsequence of `f` starting at offset `bitRev (n-s) g`. -/
lemma fftStages_invariant (n : ℕ) (f : ℕ → ℂ) :
    ∀ s, s ≤ n → ∀ g j, g < 2 ^ (n - s) → j < 2 ^ s →
      fftStages s (fun i => f (bitRev n i)) (g * 2 ^ s + j)
        = ∑ m ∈ Finset.range (2 ^ s),
            f (m * 2 ^ (n - s) + bitRev (n - s) g) * omegaC (2 ^ s) ^ (j * m) := by
  intro s
  induction s with
  | zero =>
    intro _ g j hg hj
    rw [pow_zero] at hj
    have hj0 : j = 0 := by omega
    subst hj0
    simp [fftStages, Finset.sum_range_one]
  | succ s ih =>
    intro hs g J hg hJ
    have hs' : s ≤ n := Nat.le_of_succ_le hs
    have hP : 0 < (2 : ℕ) ^ s := pow_pos (by norm_num) s
    have hq : n - s = (n - (s + 1)) + 1 := by omega
    have hpow : (2 : ℕ) ^ (s + 1) = 2 * 2 ^ s := by rw [pow_succ]; ring
    have hJ' : J < 2 * 2 ^ s := by rw [← hpow]; exact hJ
    have hQ : (2 : ℕ) ^ (n - s) = 2 * 2 ^ (n - (s + 1)) := by
      rw [hq, pow_succ]; ring
    have hg2 : 2 * g < 2 ^ (n - s) := by omega
    have hg2' : 2 * g + 1 < 2 ^ (n - s) := by omega
    have hmlt : J % 2 ^ s < 2 ^ s := Nat.mod_lt _ hP
    have hidx0 : g * 2 ^ (s + 1) + J = g * (2 * 2 ^ s) + J := by rw [hpow]
    have lhs1 : fftStages (s + 1) (fun i => f (bitRev n i)) (g * 2 ^ (s + 1) + J)
        = butterflyStage s (fftStages s (fun i => f (bitRev n i)))
            (g * (2 * 2 ^ s) + J) := by
      rw [hidx0]
      rfl
    rw [lhs1, butterflyStage_apply s _ g J hJ']
    have idx1 : g * (2 * 2 ^ s) + J % 2 ^ s = 2 * g * 2 ^ s + J % 2 ^ s := by ring
    have idx2 : g * (2 * 2 ^ s) + J % 2 ^ s + 2 ^ s
        = (2 * g + 1) * 2 ^ s + J % 2 ^ s := by ring
    rw [idx2, idx1, ih hs' (2 * g) (J % 2 ^ s) hg2 hmlt,
        ih hs' (2 * g + 1) (J % 2 ^ s) hg2' hmlt]
    rw [hq, bitRev_succ_even, bitRev_succ_odd]
    have hQ' : (2 : ℕ) ^ ((n - (s + 1)) + 1) = 2 * 2 ^ (n - (s + 1)) := by
      rw [pow_succ]; ring
    rw [hQ', hpow]
    rw [sum_range_even_odd
      (fun M => f (M * 2 ^ (n - (s + 1)) + bitRev (n - (s + 1)) g)
        * omegaC (2 * 2 ^ s) ^ (J * M)) (2 ^ s)]
    have even_eq : ∑ m ∈ Finset.range (2 ^ s),
          f (2 * m * 2 ^ (n - (s + 1)) + bitRev (n - (s + 1)) g)
            * omegaC (2 * 2 ^ s) ^ (J * (2 * m))
        = ∑ m ∈ Finset.range (2 ^ s),
            f (m * (2 * 2 ^ (n - (s + 1))) + bitRev (n - (s + 1)) g)
              * omegaC (2 ^ s) ^ (J % 2 ^ s * m) := by
      refine Finset.sum_congr rfl fun m _ => ?_
      have hidx : 2 * m * 2 ^ (n - (s + 1)) + bitRev (n - (s + 1)) g
          = m * (2 * 2 ^ (n - (s + 1))) + bitRev (n - (s + 1)) g := by ring
      have hexp : J * (2 * m) = 2 * (J * m) := by ring
      rw [hidx, hexp, pow_mul, omegaC_two_mul_sq,
        pow_natModEq (omegaC (2 ^ s)) (2 ^ s) (J * m) (J % 2 ^ s * m)
          (omegaC_pow_self _) (((Nat.mod_modEq J (2 ^ s)).symm).mul_right m)]
    have odd_eq : ∑ m ∈ Finset.range (2 ^ s),
          f ((2 * m + 1) * 2 ^ (n - (s + 1)) + bitRev (n - (s + 1)) g)
            * omegaC (2 * 2 ^ s) ^ (J * (2 * m + 1))
        = omegaC (2 * 2 ^ s) ^ J * ∑ m ∈ Finset.range (2 ^ s),
            f (m * (2 * 2 ^ (n - (s + 1)))
              + (bitRev (n - (s + 1)) g + 2 ^ (n - (s + 1))))
              * omegaC (2 ^ s) ^ (J % 2 ^ s * m) := by
      rw [Finset.mul_sum]
      refine Finset.sum_congr rfl fun m _ => ?_
      have hidx : (2 * m + 1) * 2 ^ (n - (s + 1)) + bitRev (n - (s + 1)) g
          = m * (2 * 2 ^ (n - (s + 1)))
            + (bitRev (n - (s + 1)) g + 2 ^ (n - (s + 1))) := by ring
      have hexp : J * (2 * m + 1) = 2 * (J * m) + J := by ring
      rw [hidx, hexp, pow_add, pow_mul, omegaC_two_mul_sq,
        pow_natModEq (omegaC (2 ^ s)) (2 ^ s) (J * m) (J % 2 ^ s * m)
          (omegaC_pow_self _) (((Nat.mod_modEq J (2 ^ s)).symm).mul_right m)]
      ring
    rw [even_eq, odd_eq]

/-- The 1D stage iteration computes the unnormalized 1D inverse DFT. -/
lemma fft1D_eq (n : ℕ) (f : ℕ → ℂ) (j : ℕ) (hj : j < 2 ^ n) :
    fft1D n f j = ∑ m ∈ Finset.range (2 ^ n), f m * omegaC (2 ^ n) ^ (j * m) := by
  have hg : 0 < 2 ^ (n - n) := pow_pos (by norm_num) _
  have h := fftStages_invariant n f n le_rfl 0 j hg hj
  simpa [fft1D, bitRev, Nat.sub_self] using h

/-- Product of a horizontal and a vertical twiddle power is the 2D inverse
DFT kernel. -/
lemma omegaC_cross (n x i y j : ℕ) :
    omegaC (2 ^ n) ^ (x * i) * omegaC (2 ^ n) ^ (y * j)
      = Complex.exp (2 * (Real.pi : ℂ) * Complex.I
          * ((x : ℂ) * (i : ℂ) + (y : ℂ) * (j : ℂ)) / (2 ^ n : ℂ)) := by
  rw [omegaC, ← Complex.exp_nat_mul, ← Complex.exp_nat_mul, ← Complex.exp_add]
  congr 1
  push_cast
  ring

/-- C1: executing the log2(N) horizontal butterfly stages followed by the
log2(N) vertical butterfly stages on an N×N complex field (N = 2^n) produces
the spatial-domain inverse 2D DFT of the input up to the global normalization
factor 1/N²: the stage output equals N² times the normalized inverse DFT. -/
theorem fft_engine_inverse_dft (n : ℕ) (u : ℕ → ℕ → ℂ) (x y : ℕ)
    (hx : x < 2 ^ n) (hy : y < 2 ^ n) :
    fft2D n u x y = ((2 ^ n : ℂ)) ^ 2 * invDFT2D n u x y := by
  have hN : ((2 : ℂ) ^ n) ^ 2 ≠ 0 := pow_ne_zero _ (pow_ne_zero _ two_ne_zero)
  unfold fft2D verticalFFT horizontalFFT
  rw [fft1D_eq n _ y hy]
  have lhs_eq : ∑ m ∈ Finset.range (2 ^ n),
        fft1D n (fun x' => u x' m) x * omegaC (2 ^ n) ^ (y * m)
      = ∑ m ∈ Finset.range (2 ^ n),
          ∑ i ∈ Finset.range (2 ^ n),
            u i m * Complex.exp (2 * (Real.pi : ℂ) * Complex.I
              * ((x : ℂ) * (i : ℂ) + (y : ℂ) * (m : ℂ)) / (2 ^ n : ℂ)) := by
    refine Finset.sum_congr rfl fun m _ => ?_
    rw [fft1D_eq n _ x hx, Finset.sum_mul]
    refine Finset.sum_congr rfl fun i _ => ?_
    rw [mul_assoc, omegaC_cross]
  rw [lhs_eq, invDFT2D, ← mul_assoc, mul_one_div, div_self hN, one_mul]

/-- Witness for C1 on a concrete 2×2 field at the output texel (0,0). -/
theorem fft_engine_inverse_dft_witness :
    (0 : ℕ) < 2 ^ 1 ∧ fft2D 1 sampleField2D 0 0
      = ((2 ^ 1 : ℂ)) ^ 2 * invDFT2D 1 sampleField2D 0 0 :=
  ⟨by norm_num, fft_engine_inverse_dft 1 sampleField2D 0 0 (by norm_num) (by norm_num)⟩

end Ocean
